import Mathlib

/-!
Verification of the polyarb arbitrage-detection core.

Shallow embedding conventions:
* JavaScript numbers carrying prices/sizes are modelled as exact rationals (`ℚ`).
  Where the source explicitly guards against `NaN` (the cross-market detector's
  ask extraction), values are modelled by `JsNum`, which has an explicit `nan`
  constructor; elsewhere `number | null` becomes `Option ℚ`.
* JS `Map`s keyed by token id / slug are modelled as functions `String → Option _`
  (plus an explicit key list where the source iterates over the map).
* `Date` values are epoch milliseconds (`ℤ`); functions that call `Date.now()` or
  `new Date()` take the current time as an explicit `now : ℤ` parameter.
* Sources: src/arbDetector.ts (ArbitrageDetector), src/clobApi.ts
  (getBestAsk/getBestBid), src/websocket.ts (ParsedBookUpdate),
  src/binanceApi.ts (CrossMarketDetector), src/types.ts (shared types).
-/

set_option maxRecDepth 4000

/-- Market record from types.ts (`GammaMarket`); only the fields the detection
core reads are carried: id, slug, liquidityNum, and endDate (epoch ms). -/
structure GammaMarket where
  id : String
  slug : String
  liquidityNum : ℚ
  endDate : ℤ
deriving DecidableEq, Repr

/-- `MarketPair` from types.ts: a binary market with its YES/NO token ids. -/
structure MarketPair where
  market : GammaMarket
  yesTokenId : String
  noTokenId : String
deriving DecidableEq, Repr

/-- One level of an order book (types.ts `OrderBookLevel`, price/size strings
already parsed to rationals). -/
structure OrderBookLevel where
  price : ℚ
  size : ℚ
deriving DecidableEq, Repr

/-- Order book (types.ts `OrderBook`); only the bids/asks arrays are read by
`getBestAsk`/`getBestBid`. -/
structure OrderBook where
  bids : List OrderBookLevel
  asks : List OrderBookLevel
deriving DecidableEq, Repr

/-- clobApi.ts `getBestAsk`: none on an empty ask list, otherwise the head of
the list stably sorted ascending by price — equivalently (and as embedded
here), the first level carrying the minimal price. -/
def getBestAsk (book : OrderBook) : Option OrderBookLevel :=
  book.asks.foldl
    (fun acc l =>
      match acc with
      | none => some l
      | some b => if l.price < b.price then some l else some b)
    none

/-- clobApi.ts `getBestBid`: none on an empty bid list, otherwise the head of
the list stably sorted descending by price — equivalently, the first level
carrying the maximal price. -/
def getBestBid (book : OrderBook) : Option OrderBookLevel :=
  book.bids.foldl
    (fun acc l =>
      match acc with
      | none => some l
      | some b => if b.price < l.price then some l else some b)
    none

/-- websocket.ts `ParsedBookUpdate`: a streaming delta; null fields mean "not
supplied in this update". -/
structure ParsedBookUpdate where
  tokenId : String
  bestBid : Option ℚ
  bestAsk : Option ℚ
  bestBidSize : Option ℚ
  bestAskSize : Option ℚ
  timestamp : ℤ
deriving DecidableEq, Repr

/-- The two configuration thresholds the detector reads (types.ts
`ScannerConfig`). -/
structure ScannerConfig where
  minProfit : ℚ
  minLiquidity : ℚ
deriving DecidableEq, Repr

namespace ArbDetector

/-- arbDetector.ts `TokenPrice`: cached best bid/ask and sizes for one token. -/
structure TokenPrice where
  bestAsk : Option ℚ
  bestAskSize : Option ℚ
  bestBid : Option ℚ
  bestBidSize : Option ℚ
  lastUpdate : ℤ
deriving DecidableEq, Repr

/-- arbDetector.ts `OpportunityType`. -/
inductive OpportunityType where
  | BUY_BOTH
  | SELL_BOTH
deriving DecidableEq, Repr

/-- arbDetector.ts `ExtendedOpportunity` (the wall-clock `timestamp` field is
omitted; it carries no detection logic). -/
structure ExtendedOpportunity where
  type : OpportunityType
  market : GammaMarket
  yesAskPrice : ℚ
  noAskPrice : ℚ
  yesBidPrice : Option ℚ
  noBidPrice : Option ℚ
  totalCost : ℚ
  profit : ℚ
  profitPercent : ℚ
  yesAskSize : ℚ
  noAskSize : ℚ
  yesBidSize : Option ℚ
  noBidSize : Option ℚ
  maxShares : ℚ
deriving DecidableEq, Repr

/-- The `ArbitrageDetector` state: config plus the token→pair and token→price
maps (the marketId→pair lookup is not needed by the evaluation paths). -/
structure State where
  config : ScannerConfig
  marketPairs : String → Option MarketPair
  tokenPrices : String → Option TokenPrice

/-- arbDetector.ts `checkBuyBothArbitrage` (lines 90–128). The JS guard
`!yesPrice?.bestAsk || !noPrice?.bestAsk` is falsy for a missing record, a null
ask, and an ask equal to 0, so all three reject. -/
def checkBuyBothArbitrage (st : State) (tokenId : String) : Option ExtendedOpportunity :=
  match st.marketPairs tokenId with
  | none => none
  | some pair =>
    match st.tokenPrices pair.yesTokenId, st.tokenPrices pair.noTokenId with
    | some yesPrice, some noPrice =>
      match yesPrice.bestAsk, noPrice.bestAsk with
      | some yesAsk, some noAsk =>
        if yesAsk = 0 ∨ noAsk = 0 then none
        else
          let totalCost := yesAsk + noAsk
          let profit := 1 - totalCost
          if profit < st.config.minProfit then none
          else if pair.market.liquidityNum < st.config.minLiquidity then none
          else
            let yesSize := yesPrice.bestAskSize.getD 0
            let noSize := noPrice.bestAskSize.getD 0
            let maxShares := min yesSize noSize
            if maxShares ≤ 0 then none
            else some
              { type := .BUY_BOTH
                market := pair.market
                yesAskPrice := yesAsk
                noAskPrice := noAsk
                yesBidPrice := yesPrice.bestBid
                noBidPrice := noPrice.bestBid
                totalCost := totalCost
                profit := profit
                profitPercent := profit / totalCost
                yesAskSize := yesSize
                noAskSize := noSize
                yesBidSize := yesPrice.bestBidSize
                noBidSize := noPrice.bestBidSize
                maxShares := maxShares }
      | _, _ => none
    | _, _ => none

/-- arbDetector.ts `checkSellBothArbitrage` (lines 131–169). -/
def checkSellBothArbitrage (st : State) (tokenId : String) : Option ExtendedOpportunity :=
  match st.marketPairs tokenId with
  | none => none
  | some pair =>
    match st.tokenPrices pair.yesTokenId, st.tokenPrices pair.noTokenId with
    | some yesPrice, some noPrice =>
      match yesPrice.bestBid, noPrice.bestBid with
      | some yesBid, some noBid =>
        if yesBid = 0 ∨ noBid = 0 then none
        else
          let totalBids := yesBid + noBid
          let profit := totalBids - 1
          if profit < st.config.minProfit then none
          else if pair.market.liquidityNum < st.config.minLiquidity then none
          else
            let yesSize := yesPrice.bestBidSize.getD 0
            let noSize := noPrice.bestBidSize.getD 0
            let maxShares := min yesSize noSize
            if maxShares ≤ 0 then none
            else some
              { type := .SELL_BOTH
                market := pair.market
                yesAskPrice := yesPrice.bestAsk.getD 0
                noAskPrice := noPrice.bestAsk.getD 0
                yesBidPrice := some yesBid
                noBidPrice := some noBid
                totalCost := 1
                profit := profit
                profitPercent := profit
                yesAskSize := yesPrice.bestAskSize.getD 0
                noAskSize := noPrice.bestAskSize.getD 0
                yesBidSize := some yesSize
                noBidSize := some noSize
                maxShares := maxShares }
      | _, _ => none
    | _, _ => none

/-- arbDetector.ts `checkAllArbitrageTypes` (lines 77–87): BUY_BOTH first, then
SELL_BOTH; the first non-null result wins. -/
def checkAllArbitrageTypes (st : State) (tokenId : String) : Option ExtendedOpportunity :=
  match checkBuyBothArbitrage st tokenId with
  | some opp => some opp
  | none => checkSellBothArbitrage st tokenId

/-- arbDetector.ts `updateFromOrderBook` (lines 47–60): stores the book-derived
record wholesale (no merge with the existing record), then evaluates. -/
def updateFromOrderBook (st : State) (tokenId : String) (book : OrderBook) (now : ℤ) :
    State × Option ExtendedOpportunity :=
  let record : TokenPrice :=
    { bestAsk := (getBestAsk book).map OrderBookLevel.price
      bestAskSize := (getBestAsk book).map OrderBookLevel.size
      bestBid := (getBestBid book).map OrderBookLevel.price
      bestBidSize := (getBestBid book).map OrderBookLevel.size
      lastUpdate := now }
  let st' : State :=
    { st with tokenPrices := fun t => if t = tokenId then some record else st.tokenPrices t }
  (st', checkAllArbitrageTypes st' tokenId)

/-- arbDetector.ts `updateFromWebSocket` (lines 62–74): merges the supplied
fields over the existing record (`update.f ?? existing?.f ?? null`), then
evaluates. -/
def updateFromWebSocket (st : State) (u : ParsedBookUpdate) :
    State × Option ExtendedOpportunity :=
  let existing := st.tokenPrices u.tokenId
  let record : TokenPrice :=
    { bestAsk := match u.bestAsk with
        | some x => some x
        | none => existing.bind TokenPrice.bestAsk
      bestAskSize := match u.bestAskSize with
        | some x => some x
        | none => existing.bind TokenPrice.bestAskSize
      bestBid := match u.bestBid with
        | some x => some x
        | none => existing.bind TokenPrice.bestBid
      bestBidSize := match u.bestBidSize with
        | some x => some x
        | none => existing.bind TokenPrice.bestBidSize
      lastUpdate := u.timestamp }
  let st' : State :=
    { st with tokenPrices := fun t => if t = u.tokenId then some record else st.tokenPrices t }
  (st', checkAllArbitrageTypes st' u.tokenId)

end ArbDetector

namespace CrossMarket

/-- binanceApi.ts `BTCMarketInterval`: the five interval classes. -/
inductive BTCMarketInterval where
  | i15m
  | i30m
  | i1h
  | i4h
  | i1d
deriving DecidableEq, Repr

/-- A JavaScript number that may be `NaN`; the cross-market detector's ask
extraction explicitly tests `isNaN`, so the cache values keep that case. -/
inductive JsNum where
  | nan
  | val (q : ℚ)
deriving DecidableEq, Repr

/-- binanceApi.ts `TokenPrice` for the cross-market detector. -/
structure TokenPrice where
  bestAsk : Option JsNum
  bestAskSize : Option JsNum
  bestBid : Option JsNum
  bestBidSize : Option JsNum
  lastUpdate : ℤ
deriving DecidableEq, Repr

/-- binanceApi.ts `MarketInfo`: per-market metadata derived at registration. -/
structure MarketInfo where
  market : GammaMarket
  pair : MarketPair
  interval : BTCMarketInterval
  asset : String
  resolutionTimestamp : ℤ
  candleStartTimestamp : ℤ
  referencePrice : Option ℚ
deriving DecidableEq, Repr

/-- binanceApi.ts `Strategy` union inside `CrossMarketOpportunity`. -/
inductive Strategy where
  | LONG_DOWN_SHORT_UP
  | LONG_UP_SHORT_DOWN
deriving DecidableEq, Repr

/-- binanceApi.ts `CrossMarketOpportunity`; `resolutionTime` is epoch ms and the
wall-clock `timestamp` field carries the evaluation's `now`. -/
structure CrossMarketOpportunity where
  longMarket : GammaMarket
  shortMarket : GammaMarket
  longInterval : BTCMarketInterval
  shortInterval : BTCMarketInterval
  longUpTokenId : String
  longDownTokenId : String
  shortUpTokenId : String
  shortDownTokenId : String
  longRefPrice : ℚ
  shortRefPrice : ℚ
  profitZoneLow : ℚ
  profitZoneHigh : ℚ
  strategy : Strategy
  longUpAsk : ℚ
  longDownAsk : ℚ
  shortUpAsk : ℚ
  shortDownAsk : ℚ
  entryCost : ℚ
  maxProfit : ℚ
  profitZoneWidth : ℚ
  profitZonePercent : ℚ
  maxShares : ℚ
  resolutionTime : ℤ
  minutesUntilResolution : ℚ
  timestamp : ℤ
deriving DecidableEq, Repr

/-- binanceApi.ts lines 895–898: `(p?.bestAsk && !isNaN(p.bestAsk)) ? p.bestAsk
: 0` — a missing record, a null ask, a `NaN` ask, and a 0 ask all yield 0. -/
def truthyAsk (tp : Option TokenPrice) : ℚ :=
  match tp with
  | some p =>
    match p.bestAsk with
    | some (JsNum.val q) => q
    | _ => 0
  | none => 0

/-- binanceApi.ts lines 954–959 etc.: `const s = p?.bestAskSize ?? 0` followed
by `s > 0 ? s : 1000` — the 1000 fallback applies to missing, null, `NaN`, and
non-positive sizes. -/
def shareCap (tp : Option TokenPrice) : ℚ :=
  match tp with
  | some p =>
    match p.bestAskSize with
    | some (JsNum.val q) => if 0 < q then q else 1000
    | _ => 1000
  | none => 1000

/-- binanceApi.ts lines 862–868 `intervalOrder`: 1d > 4h > 1h > 30m > 15m. -/
def intervalOrder : BTCMarketInterval → ℕ
  | .i1d => 5
  | .i4h => 4
  | .i1h => 3
  | .i30m => 2
  | .i15m => 1

/-- binanceApi.ts lines 870–879: the member with the larger interval order is
designated "long" (`info1` wins ties, which cannot occur for differing
intervals). -/
def longOf (info1 info2 : MarketInfo) : MarketInfo :=
  if intervalOrder info2.interval < intervalOrder info1.interval then info1 else info2

/-- binanceApi.ts lines 870–879: the other member is designated "short". -/
def shortOf (info1 info2 : MarketInfo) : MarketInfo :=
  if intervalOrder info2.interval < intervalOrder info1.interval then info2 else info1

/-- The opportunity record assembled at the end of binanceApi.ts
`checkPairForArbitrage` (lines 1032–1058), with the zone-width and zone-percent
fields computed from the zone bounds as in lines 1025–1027. -/
def builtOpp (longInfo shortInfo : MarketInfo) (now : ℤ)
    (longRef shortRef lu ld su sd : ℚ) (strategy : Strategy)
    (zoneLow zoneHigh entryCost maxProfit maxShares : ℚ) : CrossMarketOpportunity :=
  { longMarket := longInfo.market
    shortMarket := shortInfo.market
    longInterval := longInfo.interval
    shortInterval := shortInfo.interval
    longUpTokenId := longInfo.pair.yesTokenId
    longDownTokenId := longInfo.pair.noTokenId
    shortUpTokenId := shortInfo.pair.yesTokenId
    shortDownTokenId := shortInfo.pair.noTokenId
    longRefPrice := longRef
    shortRefPrice := shortRef
    profitZoneLow := zoneLow
    profitZoneHigh := zoneHigh
    strategy := strategy
    longUpAsk := lu
    longDownAsk := ld
    shortUpAsk := su
    shortDownAsk := sd
    entryCost := entryCost
    maxProfit := maxProfit
    profitZoneWidth := zoneHigh - zoneLow
    profitZonePercent := (zoneHigh - zoneLow) / ((longRef + shortRef) / 2) * 100
    maxShares := maxShares
    resolutionTime := longInfo.resolutionTimestamp * 1000
    minutesUntilResolution := ((longInfo.resolutionTimestamp * 1000 - now : ℤ) : ℚ) / 60000
    timestamp := now }

/-- Tail of binanceApi.ts `checkPairForArbitrage` (lines 996–1059) after the
per-branch strategy/zone/cost/size variables have been computed: the
`hasBothPrices` rejection, the profit computation, the threshold filter (never
applied to identical refs), and the assembled opportunity. -/
def finishPair (minProfit : ℚ) (longInfo shortInfo : MarketInfo) (now : ℤ)
    (longRef shortRef lu ld su sd : ℚ) (strategy : Strategy)
    (zoneLow zoneHigh entryCost : ℚ) (hasBothPrices : Bool) (maxShares : ℚ) :
    Option CrossMarketOpportunity :=
  if hasBothPrices = false then none
  else
    let maxProfit := if longRef = shortRef then -entryCost else 2 - entryCost
    if ¬ longRef = shortRef ∧ maxProfit < minProfit then none
    else
      some (builtOpp longInfo shortInfo now longRef shortRef lu ld su sd strategy
        zoneLow zoneHigh entryCost maxProfit maxShares)

/-- binanceApi.ts `checkPairForArbitrage` with long/short already designated
(lines 881–1059). The JS guard `!longInfo.referencePrice ||
!shortInfo.referencePrice` is falsy for both null and 0, so a 0 reference
price counts as missing. The three branches mirror lines 945–994. -/
def checkLongShort (prices : String → Option TokenPrice) (minProfit : ℚ)
    (longInfo shortInfo : MarketInfo) (now : ℤ) : Option CrossMarketOpportunity :=
  match longInfo.referencePrice, shortInfo.referencePrice with
  | some longRef, some shortRef =>
    if longRef = 0 ∨ shortRef = 0 then none
    else
      let lu := truthyAsk (prices longInfo.pair.yesTokenId)
      let ld := truthyAsk (prices longInfo.pair.noTokenId)
      let su := truthyAsk (prices shortInfo.pair.yesTokenId)
      let sd := truthyAsk (prices shortInfo.pair.noTokenId)
      if longRef = shortRef then
        finishPair minProfit longInfo shortInfo now longRef shortRef lu ld su sd
          .LONG_DOWN_SHORT_UP longRef longRef (ld + su)
          (decide (0 < ld) && decide (0 < su))
          (min (shareCap (prices longInfo.pair.noTokenId))
               (shareCap (prices shortInfo.pair.yesTokenId)))
      else if shortRef < longRef then
        finishPair minProfit longInfo shortInfo now longRef shortRef lu ld su sd
          .LONG_DOWN_SHORT_UP shortRef longRef (ld + su)
          (decide (0 < ld) && decide (0 < su))
          (min (shareCap (prices longInfo.pair.noTokenId))
               (shareCap (prices shortInfo.pair.yesTokenId)))
      else
        finishPair minProfit longInfo shortInfo now longRef shortRef lu ld su sd
          .LONG_UP_SHORT_DOWN longRef shortRef (lu + sd)
          (decide (0 < lu) && decide (0 < sd))
          (min (shareCap (prices longInfo.pair.yesTokenId))
               (shareCap (prices shortInfo.pair.noTokenId)))
  | _, _ => none

/-- binanceApi.ts `checkPairForArbitrage` (lines 859–1059): designate long and
short by interval order, then evaluate. -/
def checkPairForArbitrage (prices : String → Option TokenPrice) (minProfit : ℚ)
    (info1 info2 : MarketInfo) (now : ℤ) : Option CrossMarketOpportunity :=
  checkLongShort prices minProfit (longOf info1 info2) (shortOf info1 info2) now

/-- binanceApi.ts lines 829–840: the filter deciding whether `other` is paired
with the updated market inside `checkCrossMarketOpportunities` — different
slug, same asset, different interval, resolution timestamps within 300 s. -/
def isUpdateCandidate (updated other : MarketInfo) : Prop :=
  other.market.slug ≠ updated.market.slug ∧
  other.asset = updated.asset ∧
  other.interval ≠ updated.interval ∧
  (other.resolutionTimestamp - updated.resolutionTimestamp).natAbs ≤ 300

instance (u o : MarketInfo) : Decidable (isUpdateCandidate u o) := by
  unfold isUpdateCandidate; infer_instance

/-- binanceApi.ts `checkCrossMarketOpportunities` (lines 813–854): find the
market owning the updated token, evaluate every candidate, and return the best
opportunity by `maxProfit` (first wins ties, matching the stable sort). -/
def checkCrossMarketOpportunities (infos : List MarketInfo)
    (prices : String → Option TokenPrice) (minProfit : ℚ) (tokenId : String)
    (now : ℤ) : Option CrossMarketOpportunity :=
  match infos.find? (fun i =>
      decide (i.pair.yesTokenId = tokenId ∨ i.pair.noTokenId = tokenId)) with
  | none => none
  | some updatedInfo =>
    let opps := (infos.filter (fun o => decide (isUpdateCandidate updatedInfo o))).filterMap
      (fun o => checkPairForArbitrage prices minProfit updatedInfo o now)
    opps.foldl (fun acc o =>
      match acc with
      | none => some o
      | some a => if a.maxProfit < o.maxProfit then some o else some a) none

/-- JavaScript `Math.round`: round half toward positive infinity. -/
def jsRound (q : ℚ) : ℤ := Int.floor (q + 1 / 2)

/-- binanceApi.ts lines 1071–1080: the grouping key used by
`scanAllCrossMarkets` is `(asset, Math.round(resolutionTimestamp / 300))`. -/
def scanBucket (m : MarketInfo) : ℤ := jsRound ((m.resolutionTimestamp : ℚ) / 300)

/-- binanceApi.ts `scanAllCrossMarkets` (lines 1064–1116): two registered
markets are paired exactly when they share the grouping key and their
intervals differ (slug-distinctness is guaranteed by the slug-keyed map). -/
def isScanCandidate (a b : MarketInfo) : Prop :=
  a.asset = b.asset ∧ scanBucket a = scanBucket b ∧ a.interval ≠ b.interval

instance (a b : MarketInfo) : Decidable (isScanCandidate a b) := by
  unfold isScanCandidate; infer_instance

end CrossMarket

namespace ArbDetector

/-- The opportunity record produced by `checkBuyBothArbitrage` when every gate
passes. -/
def buyBothOpp (pair : MarketPair) (yp np : TokenPrice) (ya na : ℚ) : ExtendedOpportunity :=
  { type := .BUY_BOTH
    market := pair.market
    yesAskPrice := ya
    noAskPrice := na
    yesBidPrice := yp.bestBid
    noBidPrice := np.bestBid
    totalCost := ya + na
    profit := 1 - (ya + na)
    profitPercent := (1 - (ya + na)) / (ya + na)
    yesAskSize := yp.bestAskSize.getD 0
    noAskSize := np.bestAskSize.getD 0
    yesBidSize := yp.bestBidSize
    noBidSize := np.bestBidSize
    maxShares := min (yp.bestAskSize.getD 0) (np.bestAskSize.getD 0) }

/-- The opportunity record produced by `checkSellBothArbitrage` when every gate
passes. -/
def sellBothOpp (pair : MarketPair) (yp np : TokenPrice) (yb nb : ℚ) : ExtendedOpportunity :=
  { type := .SELL_BOTH
    market := pair.market
    yesAskPrice := yp.bestAsk.getD 0
    noAskPrice := np.bestAsk.getD 0
    yesBidPrice := some yb
    noBidPrice := some nb
    totalCost := 1
    profit := yb + nb - 1
    profitPercent := yb + nb - 1
    yesAskSize := yp.bestAskSize.getD 0
    noAskSize := np.bestAskSize.getD 0
    yesBidSize := some (yp.bestBidSize.getD 0)
    noBidSize := some (np.bestBidSize.getD 0)
    maxShares := min (yp.bestBidSize.getD 0) (np.bestBidSize.getD 0) }

theorem checkBuyBoth_eq {st : State} {t : String} {pair : MarketPair}
    {yp np : TokenPrice} {ya na : ℚ}
    (hpair : st.marketPairs t = some pair)
    (hyp : st.tokenPrices pair.yesTokenId = some yp)
    (hnp : st.tokenPrices pair.noTokenId = some np)
    (hya : yp.bestAsk = some ya) (hna : np.bestAsk = some na)
    (hya0 : ya ≠ 0) (hna0 : na ≠ 0) :
    checkBuyBothArbitrage st t =
      if st.config.minProfit ≤ 1 - (ya + na) ∧
         0 < min (yp.bestAskSize.getD 0) (np.bestAskSize.getD 0) ∧
         st.config.minLiquidity ≤ pair.market.liquidityNum
      then some (buyBothOpp pair yp np ya na) else none := by
  unfold checkBuyBothArbitrage
  simp only [hpair, hyp, hnp, hya, hna]
  rw [if_neg (not_or.mpr ⟨hya0, hna0⟩)]
  by_cases h1 : 1 - (ya + na) < st.config.minProfit
  · rw [if_pos h1, if_neg (fun h => absurd h.1 (not_le.mpr h1))]
  rw [if_neg h1]
  by_cases h2 : pair.market.liquidityNum < st.config.minLiquidity
  · rw [if_pos h2, if_neg (fun h => absurd h.2.2 (not_le.mpr h2))]
  rw [if_neg h2]
  by_cases h3 : min (yp.bestAskSize.getD 0) (np.bestAskSize.getD 0) ≤ 0
  · rw [if_pos h3, if_neg (fun h => absurd h.2.1 (not_lt.mpr h3))]
  rw [if_neg h3, if_pos ⟨not_lt.mp h1, not_le.mp h3, not_lt.mp h2⟩]
  rfl

theorem checkSellBoth_eq {st : State} {t : String} {pair : MarketPair}
    {yp np : TokenPrice} {yb nb : ℚ}
    (hpair : st.marketPairs t = some pair)
    (hyp : st.tokenPrices pair.yesTokenId = some yp)
    (hnp : st.tokenPrices pair.noTokenId = some np)
    (hyb : yp.bestBid = some yb) (hnb : np.bestBid = some nb)
    (hyb0 : yb ≠ 0) (hnb0 : nb ≠ 0) :
    checkSellBothArbitrage st t =
      if st.config.minProfit ≤ yb + nb - 1 ∧
         0 < min (yp.bestBidSize.getD 0) (np.bestBidSize.getD 0) ∧
         st.config.minLiquidity ≤ pair.market.liquidityNum
      then some (sellBothOpp pair yp np yb nb) else none := by
  unfold checkSellBothArbitrage
  simp only [hpair, hyp, hnp, hyb, hnb]
  rw [if_neg (not_or.mpr ⟨hyb0, hnb0⟩)]
  by_cases h1 : yb + nb - 1 < st.config.minProfit
  · rw [if_pos h1, if_neg (fun h => absurd h.1 (not_le.mpr h1))]
  rw [if_neg h1]
  by_cases h2 : pair.market.liquidityNum < st.config.minLiquidity
  · rw [if_pos h2, if_neg (fun h => absurd h.2.2 (not_le.mpr h2))]
  rw [if_neg h2]
  by_cases h3 : min (yp.bestBidSize.getD 0) (np.bestBidSize.getD 0) ≤ 0
  · rw [if_pos h3, if_neg (fun h => absurd h.2.1 (not_lt.mpr h3))]
  rw [if_neg h3, if_pos ⟨not_lt.mp h1, not_le.mp h3, not_lt.mp h2⟩]
  rfl

theorem checkBuyBoth_type {st : State} {t : String} {opp : ExtendedOpportunity}
    (h : checkBuyBothArbitrage st t = some opp) : opp.type = .BUY_BOTH := by
  unfold checkBuyBothArbitrage at h
  split at h
  · exact Option.noConfusion h
  split at h
  · split at h
    · simp only [] at h
      split_ifs at h
      obtain rfl := Option.some.inj h
      rfl
    · exact Option.noConfusion h
  · exact Option.noConfusion h

theorem checkSellBoth_type {st : State} {t : String} {opp : ExtendedOpportunity}
    (h : checkSellBothArbitrage st t = some opp) : opp.type = .SELL_BOTH := by
  unfold checkSellBothArbitrage at h
  split at h
  · exact Option.noConfusion h
  split at h
  · split at h
    · simp only [] at h
      split_ifs at h
      obtain rfl := Option.some.inj h
      rfl
    · exact Option.noConfusion h
  · exact Option.noConfusion h

theorem checkAll_of_buy_some {st : State} {t : String} {o : ExtendedOpportunity}
    (h : checkBuyBothArbitrage st t = some o) : checkAllArbitrageTypes st t = some o := by
  unfold checkAllArbitrageTypes
  rw [h]

theorem checkAll_of_buy_none {st : State} {t : String}
    (h : checkBuyBothArbitrage st t = none) :
    checkAllArbitrageTypes st t = checkSellBothArbitrage st t := by
  unfold checkAllArbitrageTypes
  rw [h]

theorem checkAll_cases {st : State} {t : String} {opp : ExtendedOpportunity}
    (h : checkAllArbitrageTypes st t = some opp) :
    checkBuyBothArbitrage st t = some opp ∨
    (checkBuyBothArbitrage st t = none ∧ checkSellBothArbitrage st t = some opp) := by
  unfold checkAllArbitrageTypes at h
  rcases hb : checkBuyBothArbitrage st t with _ | b <;> rw [hb] at h
  · exact Or.inr ⟨rfl, h⟩
  · exact Or.inl (show some b = some opp from h)

end ArbDetector

/-- Concrete market used by the witnesses. -/
def wMarket : GammaMarket :=
  { id := "m1", slug := "btc-updown-15m-1700000000", liquidityNum := 1000,
    endDate := 1700000900000 }

/-- Concrete market pair used by the witnesses. -/
def wPair : MarketPair := { market := wMarket, yesTokenId := "Y", noTokenId := "N" }

/-- Concrete config used by the witnesses (minProfit 0.005, minLiquidity 500). -/
def wConfig : ScannerConfig := { minProfit := 1 / 200, minLiquidity := 500 }

/-- YES-token price record for the BUY_BOTH witness scenario (ask 0.48). -/
def wYes : ArbDetector.TokenPrice :=
  { bestAsk := some (12 / 25), bestAskSize := some 100, bestBid := some (47 / 100),
    bestBidSize := some 50, lastUpdate := 0 }

/-- NO-token price record for the BUY_BOTH witness scenario (ask 0.51). -/
def wNo : ArbDetector.TokenPrice :=
  { bestAsk := some (51 / 100), bestAskSize := some 100, bestBid := some (1 / 2),
    bestBidSize := some 60, lastUpdate := 0 }

/-- Detector state for the BUY_BOTH witness scenario. -/
def wState : ArbDetector.State :=
  { config := wConfig
    marketPairs := fun t => if t = "Y" ∨ t = "N" then some wPair else none
    tokenPrices := fun t =>
      if t = "Y" then some wYes else if t = "N" then some wNo else none }

/-- C1: for a registered market pair whose YES and NO tokens both have a cached
best ask > 0, the evaluation shared by updateFromOrderBook, updateFromWebSocket
and scanAllMarkets (`checkAllArbitrageTypes`) returns a BUY_BOTH opportunity
iff 1 − (yesAsk + noAsk) ≥ minProfitThreshold, min(yesAskSize, noAskSize) > 0
(a missing size counting as 0), and liquidity ≥ minLiquidityThreshold; the
returned opportunity has totalCost = yesAsk + noAsk, profit = 1 − totalCost,
profitPercent = profit / totalCost, and maxShares = min(yesAskSize, noAskSize). -/
theorem c1_buy_both_characterization
    (st : ArbDetector.State) (t : String) (pair : MarketPair)
    (yp np : ArbDetector.TokenPrice) (ya na : ℚ)
    (hpair : st.marketPairs t = some pair)
    (hyp : st.tokenPrices pair.yesTokenId = some yp)
    (hnp : st.tokenPrices pair.noTokenId = some np)
    (hya : yp.bestAsk = some ya) (hna : np.bestAsk = some na)
    (hya0 : 0 < ya) (hna0 : 0 < na) :
    ((∃ opp, ArbDetector.checkAllArbitrageTypes st t = some opp ∧
        opp.type = ArbDetector.OpportunityType.BUY_BOTH) ↔
      (st.config.minProfit ≤ 1 - (ya + na) ∧
       0 < min (yp.bestAskSize.getD 0) (np.bestAskSize.getD 0) ∧
       st.config.minLiquidity ≤ pair.market.liquidityNum)) ∧
    (∀ opp, ArbDetector.checkAllArbitrageTypes st t = some opp →
      opp.type = ArbDetector.OpportunityType.BUY_BOTH →
      opp.totalCost = ya + na ∧
      opp.profit = 1 - (ya + na) ∧
      opp.profitPercent = (1 - (ya + na)) / (ya + na) ∧
      opp.maxShares = min (yp.bestAskSize.getD 0) (np.bestAskSize.getD 0)) := by
  have hchar := ArbDetector.checkBuyBoth_eq hpair hyp hnp hya hna hya0.ne' hna0.ne'
  by_cases hC : st.config.minProfit ≤ 1 - (ya + na) ∧
      0 < min (yp.bestAskSize.getD 0) (np.bestAskSize.getD 0) ∧
      st.config.minLiquidity ≤ pair.market.liquidityNum
  · have hbuy : ArbDetector.checkBuyBothArbitrage st t =
        some (ArbDetector.buyBothOpp pair yp np ya na) := by rw [hchar, if_pos hC]
    have hall := ArbDetector.checkAll_of_buy_some hbuy
    refine ⟨⟨fun _ => hC, fun _ => ⟨_, hall, rfl⟩⟩, ?_⟩
    intro opp hopp _
    rw [hall] at hopp
    obtain rfl := Option.some.inj hopp
    exact ⟨rfl, rfl, rfl, rfl⟩
  · have hbuy : ArbDetector.checkBuyBothArbitrage st t = none := by
      rw [hchar, if_neg hC]
    have hall := ArbDetector.checkAll_of_buy_none hbuy
    refine ⟨⟨?_, fun hc => absurd hc hC⟩, ?_⟩
    · rintro ⟨opp, hopp, htype⟩
      rw [hall] at hopp
      exact ArbDetector.OpportunityType.noConfusion
        ((ArbDetector.checkSellBoth_type hopp).symm.trans htype)
    · intro opp hopp htype
      rw [hall] at hopp
      exact ArbDetector.OpportunityType.noConfusion
        ((ArbDetector.checkSellBoth_type hopp).symm.trans htype)

/-- Witness for C1 at the spec's scenario: yesAsk 0.48, noAsk 0.51, sizes
100/100, minProfit 0.005, liquidity 1000 ≥ 500. -/
theorem c1_buy_both_witness :
    ∃ opp, ArbDetector.checkAllArbitrageTypes wState "Y" = some opp ∧
      opp.type = ArbDetector.OpportunityType.BUY_BOTH :=
  (c1_buy_both_characterization wState "Y" wPair wYes wNo (12 / 25) (51 / 100)
    rfl rfl rfl rfl rfl
    (by with_unfolding_all decide) (by with_unfolding_all decide)).1.mpr
    ⟨by with_unfolding_all decide, by with_unfolding_all decide,
     by with_unfolding_all decide⟩

/-- YES-token record for the SELL_BOTH witness (ask 0.55, bid 0.52). -/
def wYesS : ArbDetector.TokenPrice :=
  { bestAsk := some (11 / 20), bestAskSize := some 30, bestBid := some (13 / 25),
    bestBidSize := some 40, lastUpdate := 0 }

/-- NO-token record for the SELL_BOTH witness (ask 0.50, bid 0.49). -/
def wNoS : ArbDetector.TokenPrice :=
  { bestAsk := some (1 / 2), bestAskSize := some 20, bestBid := some (49 / 100),
    bestBidSize := some 10, lastUpdate := 0 }

/-- Detector state for the SELL_BOTH witness scenario (asks sum to 1.05, so
BUY_BOTH fails; bids sum to 1.01, so SELL_BOTH passes). -/
def wSellState : ArbDetector.State :=
  { config := wConfig
    marketPairs := fun t => if t = "Y" ∨ t = "N" then some wPair else none
    tokenPrices := fun t =>
      if t = "Y" then some wYesS else if t = "N" then some wNoS else none }

/-- C5: for a registered market whose YES and NO tokens both have a cached best
bid > 0, SELL_BOTH is returned iff (yesBid + noBid) − 1 ≥ minProfitThreshold,
the size and liquidity gates pass, and the BUY_BOTH check (run first, and
short-circuiting, so one evaluation never returns both) yielded nothing; the
returned opportunity has profit = (yesBid + noBid) − 1, totalCost reported as
1, and profitPercent = profit (not normalized by the bid sum). -/
theorem c5_sell_both_mirror_and_precedence
    (st : ArbDetector.State) (t : String) (pair : MarketPair)
    (yp np : ArbDetector.TokenPrice) (yb nb : ℚ)
    (hpair : st.marketPairs t = some pair)
    (hyp : st.tokenPrices pair.yesTokenId = some yp)
    (hnp : st.tokenPrices pair.noTokenId = some np)
    (hyb : yp.bestBid = some yb) (hnb : np.bestBid = some nb)
    (hyb0 : 0 < yb) (hnb0 : 0 < nb) :
    ((∃ opp, ArbDetector.checkAllArbitrageTypes st t = some opp ∧
        opp.type = ArbDetector.OpportunityType.SELL_BOTH) ↔
      (ArbDetector.checkBuyBothArbitrage st t = none ∧
       st.config.minProfit ≤ yb + nb - 1 ∧
       0 < min (yp.bestBidSize.getD 0) (np.bestBidSize.getD 0) ∧
       st.config.minLiquidity ≤ pair.market.liquidityNum)) ∧
    (∀ opp, ArbDetector.checkAllArbitrageTypes st t = some opp →
      opp.type = ArbDetector.OpportunityType.SELL_BOTH →
      opp.profit = yb + nb - 1 ∧ opp.totalCost = 1 ∧
      opp.profitPercent = yb + nb - 1) := by
  have hchar := ArbDetector.checkSellBoth_eq hpair hyp hnp hyb hnb hyb0.ne' hnb0.ne'
  constructor
  · constructor
    · rintro ⟨opp, hopp, htype⟩
      rcases ArbDetector.checkAll_cases hopp with hb | ⟨hbnone, hsell⟩
      · exact absurd ((ArbDetector.checkBuyBoth_type hb).symm.trans htype)
          (fun hh => ArbDetector.OpportunityType.noConfusion hh)
      · refine ⟨hbnone, ?_⟩
        rw [hchar] at hsell
        by_cases hC : st.config.minProfit ≤ yb + nb - 1 ∧
            0 < min (yp.bestBidSize.getD 0) (np.bestBidSize.getD 0) ∧
            st.config.minLiquidity ≤ pair.market.liquidityNum
        · exact ⟨hC.1, hC.2.1, hC.2.2⟩
        · rw [if_neg hC] at hsell
          exact Option.noConfusion hsell
    · rintro ⟨hbnone, h1, h2, h3⟩
      have hsell : ArbDetector.checkSellBothArbitrage st t =
          some (ArbDetector.sellBothOpp pair yp np yb nb) := by
        rw [hchar, if_pos ⟨h1, h2, h3⟩]
      exact ⟨_, (ArbDetector.checkAll_of_buy_none hbnone).trans hsell, rfl⟩
  · intro opp hopp htype
    rcases ArbDetector.checkAll_cases hopp with hb | ⟨_, hsell⟩
    · exact absurd ((ArbDetector.checkBuyBoth_type hb).symm.trans htype)
        (fun hh => ArbDetector.OpportunityType.noConfusion hh)
    · rw [hchar] at hsell
      by_cases hC : st.config.minProfit ≤ yb + nb - 1 ∧
          0 < min (yp.bestBidSize.getD 0) (np.bestBidSize.getD 0) ∧
          st.config.minLiquidity ≤ pair.market.liquidityNum
      · rw [if_pos hC] at hsell
        obtain rfl := Option.some.inj hsell
        exact ⟨rfl, rfl, rfl⟩
      · rw [if_neg hC] at hsell
        exact Option.noConfusion hsell

/-- Witness for C5: bids 0.52/0.49 (sum 1.01), asks 0.55/0.50 (sum 1.05 so
BUY_BOTH fails), minProfit 0.005, sizes 40/10, liquidity 1000. -/
theorem c5_sell_both_witness :
    ∃ opp, ArbDetector.checkAllArbitrageTypes wSellState "Y" = some opp ∧
      opp.type = ArbDetector.OpportunityType.SELL_BOTH :=
  (c5_sell_both_mirror_and_precedence wSellState "Y" wPair wYesS wNoS
    (13 / 25) (49 / 100) rfl rfl rfl rfl rfl
    (by with_unfolding_all decide) (by with_unfolding_all decide)).1.mpr
    ⟨(@ArbDetector.checkBuyBoth_eq wSellState "Y" wPair wYesS wNoS (11 / 20) (1 / 2)
        rfl rfl rfl rfl rfl
        (by with_unfolding_all decide) (by with_unfolding_all decide)).trans
        (if_neg (by with_unfolding_all decide)),
     by with_unfolding_all decide, by with_unfolding_all decide,
     by with_unfolding_all decide⟩

/-- YES-token record for the C10 witness: best ask and best bid exactly 0. -/
def wZeroYes : ArbDetector.TokenPrice :=
  { bestAsk := some 0, bestAskSize := some 100, bestBid := some 0,
    bestBidSize := some 5, lastUpdate := 0 }

/-- Detector state for the C10 witness: YES ask is exactly 0 and NO ask is
0.51, so yesAsk + noAsk < 1 would be maximally profitable, yet nothing is
returned. -/
def wZeroState : ArbDetector.State :=
  { config := wConfig
    marketPairs := fun t => if t = "Y" ∨ t = "N" then some wPair else none
    tokenPrices := fun t =>
      if t = "Y" then some wZeroYes else if t = "N" then some wNo else none }

/-- C10: a cached best ask equal to exactly 0 on either token prevents any
BUY_BOTH opportunity for that market (the truthiness guard treats a 0 price as
absent), and symmetrically a cached best bid of exactly 0 prevents any
SELL_BOTH opportunity. -/
theorem c10_zero_price_treated_as_missing
    (st : ArbDetector.State) (t : String) (pair : MarketPair)
    (hpair : st.marketPairs t = some pair) :
    (((st.tokenPrices pair.yesTokenId).bind ArbDetector.TokenPrice.bestAsk = some 0 ∨
      (st.tokenPrices pair.noTokenId).bind ArbDetector.TokenPrice.bestAsk = some 0) →
      ArbDetector.checkBuyBothArbitrage st t = none ∧
      ∀ opp, ArbDetector.checkAllArbitrageTypes st t = some opp →
        opp.type ≠ ArbDetector.OpportunityType.BUY_BOTH) ∧
    (((st.tokenPrices pair.yesTokenId).bind ArbDetector.TokenPrice.bestBid = some 0 ∨
      (st.tokenPrices pair.noTokenId).bind ArbDetector.TokenPrice.bestBid = some 0) →
      ArbDetector.checkSellBothArbitrage st t = none ∧
      ∀ opp, ArbDetector.checkAllArbitrageTypes st t = some opp →
        opp.type ≠ ArbDetector.OpportunityType.SELL_BOTH) := by
  constructor
  · intro h0
    have hbuy : ArbDetector.checkBuyBothArbitrage st t = none := by
      unfold ArbDetector.checkBuyBothArbitrage
      split
      · rfl
      next pair2 heq =>
        obtain rfl := Option.some.inj (hpair.symm.trans heq)
        split
        next yesPrice noPrice heqy heqn =>
          split
          next yesAsk noAsk heqya heqna =>
            have hcond : yesAsk = 0 ∨ noAsk = 0 := by
              rcases h0 with h0 | h0
              · rw [heqy] at h0
                have h0' : yesPrice.bestAsk = some 0 := h0
                exact Or.inl (Option.some.inj (heqya.symm.trans h0'))
              · rw [heqn] at h0
                have h0' : noPrice.bestAsk = some 0 := h0
                exact Or.inr (Option.some.inj (heqna.symm.trans h0'))
            rw [if_pos hcond]
          next => rfl
        next => rfl
    refine ⟨hbuy, ?_⟩
    intro opp hopp htype
    rw [ArbDetector.checkAll_of_buy_none hbuy] at hopp
    exact ArbDetector.OpportunityType.noConfusion
      ((ArbDetector.checkSellBoth_type hopp).symm.trans htype)
  · intro h0
    have hsell : ArbDetector.checkSellBothArbitrage st t = none := by
      unfold ArbDetector.checkSellBothArbitrage
      split
      · rfl
      next pair2 heq =>
        obtain rfl := Option.some.inj (hpair.symm.trans heq)
        split
        next yesPrice noPrice heqy heqn =>
          split
          next yesBid noBid heqyb heqnb =>
            have hcond : yesBid = 0 ∨ noBid = 0 := by
              rcases h0 with h0 | h0
              · rw [heqy] at h0
                have h0' : yesPrice.bestBid = some 0 := h0
                exact Or.inl (Option.some.inj (heqyb.symm.trans h0'))
              · rw [heqn] at h0
                have h0' : noPrice.bestBid = some 0 := h0
                exact Or.inr (Option.some.inj (heqnb.symm.trans h0'))
            rw [if_pos hcond]
          next => rfl
        next => rfl
    refine ⟨hsell, ?_⟩
    intro opp hopp htype
    rcases ArbDetector.checkAll_cases hopp with hb | ⟨_, hs⟩
    · exact ArbDetector.OpportunityType.noConfusion
        ((ArbDetector.checkBuyBoth_type hb).symm.trans htype)
    · rw [hsell] at hs
      exact Option.noConfusion hs

/-- Witness for C10: with the YES ask and bid both exactly 0, neither check
returns anything even though the ask sum 0.51 < 1. -/
theorem c10_zero_price_witness :
    ArbDetector.checkBuyBothArbitrage wZeroState "Y" = none ∧
    ArbDetector.checkSellBothArbitrage wZeroState "Y" = none :=
  ⟨((c10_zero_price_treated_as_missing wZeroState "Y" wPair rfl).1
      (Or.inl (by with_unfolding_all decide))).1,
   ((c10_zero_price_treated_as_missing wZeroState "Y" wPair rfl).2
      (Or.inl (by with_unfolding_all decide))).1⟩

/-- Token record stored before the C3 updates: every field known. -/
def c3Stored : ArbDetector.TokenPrice :=
  { bestAsk := some (1 / 2), bestAskSize := some 10, bestBid := some (2 / 5),
    bestBidSize := some 7, lastUpdate := 0 }

/-- Detector state for C3 with `c3Stored` cached under token "T". -/
def c3State : ArbDetector.State :=
  { config := wConfig
    marketPairs := fun _ => none
    tokenPrices := fun t => if t = "T" then some c3Stored else none }

/-- Order-book snapshot for the C3 counterexample: an ask side but no bid
side. -/
def c3Book : OrderBook := { bids := [], asks := [{ price := 1 / 2, size := 10 }] }

/-- A streaming delta carrying only a best-ask price (no sizes, no bid), as
produced by the price_change WebSocket path. -/
def c3Update : ParsedBookUpdate :=
  { tokenId := "T", bestBid := none, bestAsk := some (3 / 5), bestBidSize := none,
    bestAskSize := none, timestamp := 9 }

/-- C3 counterexample: the claim says both ingestion paths merge supplied
fields over the existing record, preserving any field not supplied; but
`updateFromOrderBook` replaces the record wholesale — a snapshot that supplies
only an ask side erases the previously stored best bid and best-bid size. -/
theorem c3_counterexample :
    (c3State.tokenPrices "T").bind ArbDetector.TokenPrice.bestBid = some (2 / 5) ∧
    (c3State.tokenPrices "T").bind ArbDetector.TokenPrice.bestBidSize = some 7 ∧
    ((ArbDetector.updateFromOrderBook c3State "T" c3Book 5).1.tokenPrices "T").bind
      ArbDetector.TokenPrice.bestBid = none ∧
    ((ArbDetector.updateFromOrderBook c3State "T" c3Book 5).1.tokenPrices "T").bind
      ArbDetector.TokenPrice.bestBidSize = none := by
  refine ⟨rfl, rfl, ?_, ?_⟩ <;> with_unfolding_all decide

/-- C3 amended: the streaming path (`updateFromWebSocket`) merges the supplied
fields over the existing record — an unsupplied field keeps its stored value,
so a price-only update never nulls a stored size — and is idempotent; the
snapshot path (`updateFromOrderBook`) instead replaces the token's record
wholesale with the book-derived fields regardless of the prior state, and is
idempotent for a fixed snapshot and timestamp. -/
theorem c3_merge_contract_amended :
    (∀ (st : ArbDetector.State) (u : ParsedBookUpdate) (tp : ArbDetector.TokenPrice),
      st.tokenPrices u.tokenId = some tp →
      ((ArbDetector.updateFromWebSocket st u).1.tokenPrices u.tokenId).map
          ArbDetector.TokenPrice.lastUpdate = some u.timestamp ∧
      (u.bestAsk = none →
        ((ArbDetector.updateFromWebSocket st u).1.tokenPrices u.tokenId).bind
          ArbDetector.TokenPrice.bestAsk = tp.bestAsk) ∧
      (u.bestAskSize = none →
        ((ArbDetector.updateFromWebSocket st u).1.tokenPrices u.tokenId).bind
          ArbDetector.TokenPrice.bestAskSize = tp.bestAskSize) ∧
      (u.bestBid = none →
        ((ArbDetector.updateFromWebSocket st u).1.tokenPrices u.tokenId).bind
          ArbDetector.TokenPrice.bestBid = tp.bestBid) ∧
      (u.bestBidSize = none →
        ((ArbDetector.updateFromWebSocket st u).1.tokenPrices u.tokenId).bind
          ArbDetector.TokenPrice.bestBidSize = tp.bestBidSize) ∧
      (∀ x, u.bestAsk = some x →
        ((ArbDetector.updateFromWebSocket st u).1.tokenPrices u.tokenId).bind
          ArbDetector.TokenPrice.bestAsk = some x) ∧
      (∀ x, u.bestAskSize = some x →
        ((ArbDetector.updateFromWebSocket st u).1.tokenPrices u.tokenId).bind
          ArbDetector.TokenPrice.bestAskSize = some x) ∧
      (∀ x, u.bestBid = some x →
        ((ArbDetector.updateFromWebSocket st u).1.tokenPrices u.tokenId).bind
          ArbDetector.TokenPrice.bestBid = some x) ∧
      (∀ x, u.bestBidSize = some x →
        ((ArbDetector.updateFromWebSocket st u).1.tokenPrices u.tokenId).bind
          ArbDetector.TokenPrice.bestBidSize = some x)) ∧
    (∀ st u,
      (ArbDetector.updateFromWebSocket (ArbDetector.updateFromWebSocket st u).1 u).1.tokenPrices =
      (ArbDetector.updateFromWebSocket st u).1.tokenPrices) ∧
    (∀ st st' t book now,
      (ArbDetector.updateFromOrderBook st t book now).1.tokenPrices t =
      (ArbDetector.updateFromOrderBook st' t book now).1.tokenPrices t) ∧
    (∀ st t book now,
      (ArbDetector.updateFromOrderBook
          (ArbDetector.updateFromOrderBook st t book now).1 t book now).1.tokenPrices =
      (ArbDetector.updateFromOrderBook st t book now).1.tokenPrices) := by
  refine ⟨?_, ?_, ?_, ?_⟩
  · intro st u tp htp
    refine ⟨?_, ?_, ?_, ?_, ?_, ?_, ?_, ?_, ?_⟩
    · simp [ArbDetector.updateFromWebSocket]
    all_goals intros
    all_goals simp_all [ArbDetector.updateFromWebSocket]
  · intro st u
    funext s
    rcases u with ⟨tid, ub, ua, ubs, uas, ts⟩
    by_cases hs : s = tid
    · subst hs
      cases ub <;> cases ua <;> cases ubs <;> cases uas <;>
        simp [ArbDetector.updateFromWebSocket]
    · simp [ArbDetector.updateFromWebSocket, hs]
  · intro st st' t book now
    simp [ArbDetector.updateFromOrderBook]
  · intro st t book now
    funext s
    by_cases hs : s = t
    · subst hs
      simp [ArbDetector.updateFromOrderBook]
    · simp [ArbDetector.updateFromOrderBook, hs]

/-- Witness for C3's amended theorem: applying the price-only delta `c3Update`
to `c3State` keeps the stored best-ask size 10. -/
theorem c3_merge_contract_witness :
    ((ArbDetector.updateFromWebSocket c3State c3Update).1.tokenPrices "T").bind
      ArbDetector.TokenPrice.bestAskSize = some 10 :=
  ((c3_merge_contract_amended.1 c3State c3Update c3Stored rfl).2.2.1 rfl).trans rfl

namespace CrossMarket

theorem finishPair_eq (minProfit : ℚ) (L S : MarketInfo) (now : ℤ)
    (longRef shortRef lu ld su sd : ℚ) (strategy : Strategy)
    (zoneLow zoneHigh entryCost : ℚ) (hb : Bool) (maxShares : ℚ) :
    finishPair minProfit L S now longRef shortRef lu ld su sd strategy
      zoneLow zoneHigh entryCost hb maxShares =
      if hb = false then none
      else if longRef = shortRef then
        some (builtOpp L S now longRef shortRef lu ld su sd strategy
          zoneLow zoneHigh entryCost (-entryCost) maxShares)
      else if 2 - entryCost < minProfit then none
      else some (builtOpp L S now longRef shortRef lu ld su sd strategy
        zoneLow zoneHigh entryCost (2 - entryCost) maxShares) := by
  by_cases h1 : hb = false
  · simp [finishPair, h1]
  by_cases h2 : longRef = shortRef
  · simp [finishPair, h1, h2]
  by_cases h3 : 2 - entryCost < minProfit
  · simp [finishPair, h1, h2, h3]
  · simp [finishPair, h1, h2, h3]

theorem checkLongShort_ref_zero (prices : String → Option TokenPrice)
    (minProfit : ℚ) (L S : MarketInfo) (now : ℤ) (lr sr : ℚ)
    (hl : L.referencePrice = some lr) (hs : S.referencePrice = some sr)
    (h0 : lr = 0 ∨ sr = 0) : checkLongShort prices minProfit L S now = none := by
  unfold checkLongShort
  simp only [hl, hs]
  rw [if_pos h0]

theorem checkLongShort_eq (prices : String → Option TokenPrice) (minProfit : ℚ)
    (L S : MarketInfo) (now : ℤ) (lr sr : ℚ)
    (hl : L.referencePrice = some lr) (hs : S.referencePrice = some sr)
    (hl0 : lr ≠ 0) (hs0 : sr ≠ 0) :
    checkLongShort prices minProfit L S now =
      if lr = sr then
        finishPair minProfit L S now lr sr
          (truthyAsk (prices L.pair.yesTokenId)) (truthyAsk (prices L.pair.noTokenId))
          (truthyAsk (prices S.pair.yesTokenId)) (truthyAsk (prices S.pair.noTokenId))
          .LONG_DOWN_SHORT_UP lr lr
          (truthyAsk (prices L.pair.noTokenId) + truthyAsk (prices S.pair.yesTokenId))
          (decide (0 < truthyAsk (prices L.pair.noTokenId)) &&
            decide (0 < truthyAsk (prices S.pair.yesTokenId)))
          (min (shareCap (prices L.pair.noTokenId)) (shareCap (prices S.pair.yesTokenId)))
      else if sr < lr then
        finishPair minProfit L S now lr sr
          (truthyAsk (prices L.pair.yesTokenId)) (truthyAsk (prices L.pair.noTokenId))
          (truthyAsk (prices S.pair.yesTokenId)) (truthyAsk (prices S.pair.noTokenId))
          .LONG_DOWN_SHORT_UP sr lr
          (truthyAsk (prices L.pair.noTokenId) + truthyAsk (prices S.pair.yesTokenId))
          (decide (0 < truthyAsk (prices L.pair.noTokenId)) &&
            decide (0 < truthyAsk (prices S.pair.yesTokenId)))
          (min (shareCap (prices L.pair.noTokenId)) (shareCap (prices S.pair.yesTokenId)))
      else
        finishPair minProfit L S now lr sr
          (truthyAsk (prices L.pair.yesTokenId)) (truthyAsk (prices L.pair.noTokenId))
          (truthyAsk (prices S.pair.yesTokenId)) (truthyAsk (prices S.pair.noTokenId))
          .LONG_UP_SHORT_DOWN lr sr
          (truthyAsk (prices L.pair.yesTokenId) + truthyAsk (prices S.pair.noTokenId))
          (decide (0 < truthyAsk (prices L.pair.yesTokenId)) &&
            decide (0 < truthyAsk (prices S.pair.noTokenId)))
          (min (shareCap (prices L.pair.yesTokenId)) (shareCap (prices S.pair.noTokenId))) := by
  unfold checkLongShort
  simp only [hl, hs]
  rw [if_neg (not_or.mpr ⟨hl0, hs0⟩)]

theorem intervalOrder_injective : ∀ i j : BTCMarketInterval,
    intervalOrder i = intervalOrder j → i = j := by
  intro i j h
  cases i <;> cases j <;> first | rfl | exact absurd h (by decide)

theorem longOf_comm {a b : MarketInfo} (h : a.interval ≠ b.interval) :
    longOf a b = longOf b a ∧ shortOf a b = shortOf b a := by
  have hne : intervalOrder a.interval ≠ intervalOrder b.interval :=
    fun hh => h (intervalOrder_injective _ _ hh)
  unfold longOf shortOf
  rcases hne.lt_or_lt with hlt | hlt
  · rw [if_neg (by omega), if_pos hlt, if_neg (by omega), if_pos hlt]
    exact ⟨rfl, rfl⟩
  · rw [if_pos hlt, if_neg (by omega), if_pos hlt, if_neg (by omega)]
    exact ⟨rfl, rfl⟩

end CrossMarket

/-- C9: evaluating a candidate pair from either side designates the same long
market — the one whose interval is larger in the ordering 1d > 4h > 1h > 30m >
15m — and produces the same result (timestamps are explicit inputs here, so
the results are equal outright). -/
theorem c9_pair_evaluation_symmetry
    (prices : String → Option CrossMarket.TokenPrice) (minProfit : ℚ)
    (a b : CrossMarket.MarketInfo) (now : ℤ)
    (h : a.interval ≠ b.interval) :
    CrossMarket.longOf a b = CrossMarket.longOf b a ∧
    CrossMarket.intervalOrder (CrossMarket.longOf a b).interval =
      max (CrossMarket.intervalOrder a.interval) (CrossMarket.intervalOrder b.interval) ∧
    CrossMarket.checkPairForArbitrage prices minProfit a b now =
      CrossMarket.checkPairForArbitrage prices minProfit b a now := by
  obtain ⟨hl, hs⟩ := CrossMarket.longOf_comm h
  refine ⟨hl, ?_, ?_⟩
  · unfold CrossMarket.longOf
    split_ifs with hc
    · exact (max_eq_left hc.le).symm
    · exact (max_eq_right (not_lt.mp hc)).symm
  · unfold CrossMarket.checkPairForArbitrage
    rw [hl, hs]

/-- Long (1h) market for the cross-market witnesses. -/
def cmMarketL : GammaMarket :=
  { id := "L", slug := "bitcoin-up-or-down-december-23-10pm-et", liquidityNum := 2000,
    endDate := 1700003600000 }

/-- Short (15m) market for the cross-market witnesses. -/
def cmMarketS : GammaMarket :=
  { id := "S", slug := "btc-updown-15m-1700002700", liquidityNum := 800,
    endDate := 1700003600000 }

/-- Token pair of the long market. -/
def cmPairL : MarketPair := { market := cmMarketL, yesTokenId := "LU", noTokenId := "LD" }

/-- Token pair of the short market. -/
def cmPairS : MarketPair := { market := cmMarketS, yesTokenId := "SU", noTokenId := "SD" }

/-- Parsed market info of the long (1h) market, reference price 100000. -/
def cmInfoL : CrossMarket.MarketInfo :=
  { market := cmMarketL, pair := cmPairL, interval := .i1h, asset := "btc",
    resolutionTimestamp := 1700003600, candleStartTimestamp := 1700000000,
    referencePrice := some 100000 }

/-- Parsed market info of the short (15m) market, reference price 99000. -/
def cmInfoS : CrossMarket.MarketInfo :=
  { market := cmMarketS, pair := cmPairS, interval := .i15m, asset := "btc",
    resolutionTimestamp := 1700003600, candleStartTimestamp := 1700002700,
    referencePrice := some 99000 }

/-- Cached asks for the four legs: LU 0.60, LD 0.40, SU 0.55, SD 0.50. -/
def cmPrices : String → Option CrossMarket.TokenPrice := fun t =>
  if t = "LU" then
    some { bestAsk := some (.val (3 / 5)), bestAskSize := some (.val 50),
           bestBid := none, bestBidSize := none, lastUpdate := 0 }
  else if t = "LD" then
    some { bestAsk := some (.val (2 / 5)), bestAskSize := some (.val 80),
           bestBid := none, bestBidSize := none, lastUpdate := 0 }
  else if t = "SU" then
    some { bestAsk := some (.val (11 / 20)), bestAskSize := some (.val 60),
           bestBid := none, bestBidSize := none, lastUpdate := 0 }
  else if t = "SD" then
    some { bestAsk := some (.val (1 / 2)), bestAskSize := some (.val 70),
           bestBid := none, bestBidSize := none, lastUpdate := 0 }
  else none

/-- Witness for C9 at the 1h/15m fixture: both orders of evaluation agree, and
the 1h market is designated long. -/
theorem c9_pair_evaluation_witness :
    CrossMarket.checkPairForArbitrage cmPrices (1 / 1000) cmInfoL cmInfoS 1700000000000 =
      CrossMarket.checkPairForArbitrage cmPrices (1 / 1000) cmInfoS cmInfoL 1700000000000 ∧
    CrossMarket.longOf cmInfoL cmInfoS = cmInfoL :=
  ⟨(c9_pair_evaluation_symmetry cmPrices (1 / 1000) cmInfoL cmInfoS 1700000000000
      (by decide)).2.2,
   rfl⟩

/-- C2: whenever a cross-market evaluation with both reference prices present
and unequal returns an opportunity, the strategy and zone follow the sign of
longRef − shortRef: longRef > shortRef gives LONG_DOWN_SHORT_UP with zone
[shortRef, longRef], shortRef > longRef gives LONG_UP_SHORT_DOWN with zone
[longRef, shortRef]; profitZoneWidth = high − low and profitZonePercent =
width / ((longRef + shortRef)/2) · 100. -/
theorem c2_strategy_and_zone_selection
    (prices : String → Option CrossMarket.TokenPrice) (minProfit : ℚ)
    (a b : CrossMarket.MarketInfo) (now : ℤ) (lr sr : ℚ)
    (opp : CrossMarket.CrossMarketOpportunity)
    (hl : (CrossMarket.longOf a b).referencePrice = some lr)
    (hs : (CrossMarket.shortOf a b).referencePrice = some sr)
    (hne : lr ≠ sr)
    (hopp : CrossMarket.checkPairForArbitrage prices minProfit a b now = some opp) :
    (sr < lr → opp.strategy = CrossMarket.Strategy.LONG_DOWN_SHORT_UP ∧
      opp.profitZoneLow = sr ∧ opp.profitZoneHigh = lr) ∧
    (lr < sr → opp.strategy = CrossMarket.Strategy.LONG_UP_SHORT_DOWN ∧
      opp.profitZoneLow = lr ∧ opp.profitZoneHigh = sr) ∧
    opp.profitZoneWidth = opp.profitZoneHigh - opp.profitZoneLow ∧
    opp.profitZonePercent = opp.profitZoneWidth / ((lr + sr) / 2) * 100 := by
  unfold CrossMarket.checkPairForArbitrage at hopp
  by_cases h0 : lr = 0 ∨ sr = 0
  · rw [CrossMarket.checkLongShort_ref_zero prices minProfit _ _ now lr sr hl hs h0] at hopp
    exact Option.noConfusion hopp
  push_neg at h0
  rw [CrossMarket.checkLongShort_eq prices minProfit _ _ now lr sr hl hs h0.1 h0.2] at hopp
  simp only [CrossMarket.finishPair_eq] at hopp
  rw [if_neg hne] at hopp
  by_cases hlt : sr < lr
  · rw [if_pos hlt] at hopp
    split_ifs at hopp
    obtain rfl := Option.some.inj hopp
    exact ⟨fun _ => ⟨rfl, rfl, rfl⟩, fun hcon => absurd hcon (lt_asymm hlt), rfl, rfl⟩
  · rw [if_neg hlt] at hopp
    split_ifs at hopp
    obtain rfl := Option.some.inj hopp
    refine ⟨fun hcon => absurd hcon hlt, fun _ => ⟨rfl, rfl, rfl⟩, rfl, rfl⟩

/-- Witness for C2 at the spec scenario longRef 100000, shortRef 99000 with
long-DOWN ask 0.40 and short-UP ask 0.55. -/
theorem c2_strategy_witness :
    ∃ opp, CrossMarket.checkPairForArbitrage cmPrices (1 / 1000) cmInfoL cmInfoS
        1700000000000 = some opp ∧
      opp.strategy = CrossMarket.Strategy.LONG_DOWN_SHORT_UP ∧
      opp.profitZoneLow = 99000 ∧ opp.profitZoneHigh = 100000 := by
  obtain ⟨opp, hopp⟩ : ∃ opp, CrossMarket.checkPairForArbitrage cmPrices (1 / 1000)
      cmInfoL cmInfoS 1700000000000 = some opp := ⟨_, by with_unfolding_all rfl⟩
  have h := c2_strategy_and_zone_selection cmPrices (1 / 1000) cmInfoL cmInfoS
    1700000000000 100000 99000 opp rfl rfl (by with_unfolding_all decide) hopp
  have h2 := h.1 (by with_unfolding_all decide)
  exact ⟨opp, hopp, h2.1, h2.2.1, h2.2.2⟩

namespace CrossMarket

theorem checkLongShort_ref_none (prices : String → Option TokenPrice)
    (minProfit : ℚ) (L S : MarketInfo) (now : ℤ)
    (h : L.referencePrice = none ∨ S.referencePrice = none) :
    checkLongShort prices minProfit L S now = none := by
  unfold checkLongShort
  rcases hL : L.referencePrice with _ | lv <;> rcases hS : S.referencePrice with _ | sv <;>
    simp only [hL, hS]
  rcases h with h | h
  · exact absurd (hL.symm.trans h) (by simp)
  · exact absurd (hS.symm.trans h) (by simp)

end CrossMarket

/-- C4: when the two reference prices are present (non-zero, per the JS
truthiness guard) and exactly equal, and the chosen legs (long-DOWN and
short-UP) have non-zero asks, an opportunity is returned for every profit
threshold, with a zero-width zone at the common reference price and
maxProfit = −entryCost; when the reference prices differ, every returned
opportunity has maxProfit = 2 − entryCost, and (given the chosen legs have
genuine asks) the pair is rejected exactly when maxProfit < minProfit. -/
theorem c4_identical_refs_always_reported
    (prices : String → Option CrossMarket.TokenPrice) (minProfit : ℚ)
    (a b : CrossMarket.MarketInfo) (now : ℤ) :
    (∀ r, (CrossMarket.longOf a b).referencePrice = some r →
      (CrossMarket.shortOf a b).referencePrice = some r → r ≠ 0 →
      0 < CrossMarket.truthyAsk (prices (CrossMarket.longOf a b).pair.noTokenId) →
      0 < CrossMarket.truthyAsk (prices (CrossMarket.shortOf a b).pair.yesTokenId) →
      ∃ opp, CrossMarket.checkPairForArbitrage prices minProfit a b now = some opp ∧
        opp.profitZoneLow = r ∧ opp.profitZoneHigh = r ∧
        opp.maxProfit = -opp.entryCost) ∧
    (∀ lr sr, (CrossMarket.longOf a b).referencePrice = some lr →
      (CrossMarket.shortOf a b).referencePrice = some sr →
      lr ≠ 0 → sr ≠ 0 → lr ≠ sr →
      (∀ opp, CrossMarket.checkPairForArbitrage prices minProfit a b now = some opp →
        opp.maxProfit = 2 - opp.entryCost) ∧
      ((if sr < lr
        then 0 < CrossMarket.truthyAsk (prices (CrossMarket.longOf a b).pair.noTokenId) ∧
          0 < CrossMarket.truthyAsk (prices (CrossMarket.shortOf a b).pair.yesTokenId)
        else 0 < CrossMarket.truthyAsk (prices (CrossMarket.longOf a b).pair.yesTokenId) ∧
          0 < CrossMarket.truthyAsk (prices (CrossMarket.shortOf a b).pair.noTokenId)) →
        (CrossMarket.checkPairForArbitrage prices minProfit a b now = none ↔
          2 - (if sr < lr
            then CrossMarket.truthyAsk (prices (CrossMarket.longOf a b).pair.noTokenId) +
              CrossMarket.truthyAsk (prices (CrossMarket.shortOf a b).pair.yesTokenId)
            else CrossMarket.truthyAsk (prices (CrossMarket.longOf a b).pair.yesTokenId) +
              CrossMarket.truthyAsk (prices (CrossMarket.shortOf a b).pair.noTokenId)) <
            minProfit))) := by
  constructor
  · intro r hl hs hr0 hld hsu
    unfold CrossMarket.checkPairForArbitrage
    rw [CrossMarket.checkLongShort_eq prices minProfit _ _ now r r hl hs hr0 hr0,
      if_pos rfl, CrossMarket.finishPair_eq]
    have hb : (decide (0 < CrossMarket.truthyAsk
          (prices (CrossMarket.longOf a b).pair.noTokenId)) &&
        decide (0 < CrossMarket.truthyAsk
          (prices (CrossMarket.shortOf a b).pair.yesTokenId))) = true := by
      rw [decide_eq_true hld, decide_eq_true hsu]; rfl
    rw [hb, if_neg (by decide), if_pos rfl]
    exact ⟨_, rfl, rfl, rfl, rfl⟩
  · intro lr sr hl hs hl0 hs0 hne
    constructor
    · intro opp hopp
      unfold CrossMarket.checkPairForArbitrage at hopp
      rw [CrossMarket.checkLongShort_eq prices minProfit _ _ now lr sr hl hs hl0 hs0] at hopp
      simp only [CrossMarket.finishPair_eq] at hopp
      rw [if_neg hne] at hopp
      by_cases hlt : sr < lr
      · rw [if_pos hlt] at hopp
        split_ifs at hopp
        obtain rfl := Option.some.inj hopp
        rfl
      · rw [if_neg hlt] at hopp
        split_ifs at hopp
        obtain rfl := Option.some.inj hopp
        rfl
    · intro hpos
      unfold CrossMarket.checkPairForArbitrage
      rw [CrossMarket.checkLongShort_eq prices minProfit _ _ now lr sr hl hs hl0 hs0,
        if_neg hne]
      by_cases hlt : sr < lr
      · simp only [if_pos hlt] at hpos ⊢
        rw [CrossMarket.finishPair_eq]
        have hb : (decide (0 < CrossMarket.truthyAsk
              (prices (CrossMarket.longOf a b).pair.noTokenId)) &&
            decide (0 < CrossMarket.truthyAsk
              (prices (CrossMarket.shortOf a b).pair.yesTokenId))) = true := by
          rw [decide_eq_true hpos.1, decide_eq_true hpos.2]; rfl
        rw [hb, if_neg (by decide), if_neg hne]
        by_cases hth : 2 - (CrossMarket.truthyAsk (prices (CrossMarket.longOf a b).pair.noTokenId) +
            CrossMarket.truthyAsk (prices (CrossMarket.shortOf a b).pair.yesTokenId)) < minProfit
        · simp [hth]
        · simp [hth]
      · simp only [if_neg hlt] at hpos ⊢
        rw [CrossMarket.finishPair_eq]
        have hb : (decide (0 < CrossMarket.truthyAsk
              (prices (CrossMarket.longOf a b).pair.yesTokenId)) &&
            decide (0 < CrossMarket.truthyAsk
              (prices (CrossMarket.shortOf a b).pair.noTokenId))) = true := by
          rw [decide_eq_true hpos.1, decide_eq_true hpos.2]; rfl
        rw [hb, if_neg (by decide), if_neg hne]
        by_cases hth : 2 - (CrossMarket.truthyAsk (prices (CrossMarket.longOf a b).pair.yesTokenId) +
            CrossMarket.truthyAsk (prices (CrossMarket.shortOf a b).pair.noTokenId)) < minProfit
        · simp [hth]
        · simp [hth]

/-- Short-market info with the same reference price as the long market. -/
def cmInfoSEq : CrossMarket.MarketInfo :=
  { cmInfoS with referencePrice := some 100000 }

/-- Witness for C4: identical refs 100000/100000 with legs 0.40/0.55 priced is
still reported even under an absurd profit threshold of 1000000, with a
zero-width zone and maxProfit = −entryCost. -/
theorem c4_identical_refs_witness :
    ∃ opp, CrossMarket.checkPairForArbitrage cmPrices 1000000 cmInfoL cmInfoSEq
        1700000000000 = some opp ∧
      opp.profitZoneLow = 100000 ∧ opp.profitZoneHigh = 100000 ∧
      opp.maxProfit = -opp.entryCost :=
  (c4_identical_refs_always_reported cmPrices 1000000 cmInfoL cmInfoSEq
    1700000000000).1 100000 rfl rfl (by with_unfolding_all decide)
    (by with_unfolding_all decide) (by with_unfolding_all decide)

/-- C6: a leg with no genuine ask (absent record, null ask, NaN ask, or 0 ask)
contributes 0 through `truthyAsk`; an evaluation (which is a total function,
so it never throws) returns an opportunity only when both chosen legs have
strictly positive asks, and every returned opportunity's entryCost is exactly
the sum of those two strictly positive asks. -/
theorem c6_missing_ask_handling
    (prices : String → Option CrossMarket.TokenPrice) (minProfit : ℚ)
    (a b : CrossMarket.MarketInfo) (now : ℤ) :
    (∀ p : Option CrossMarket.TokenPrice,
      (p = none ∨ ∃ tp, p = some tp ∧
        (tp.bestAsk = none ∨ tp.bestAsk = some CrossMarket.JsNum.nan ∨
         tp.bestAsk = some (CrossMarket.JsNum.val 0))) →
      CrossMarket.truthyAsk p = 0) ∧
    (∀ opp, CrossMarket.checkPairForArbitrage prices minProfit a b now = some opp →
      (opp.strategy = CrossMarket.Strategy.LONG_DOWN_SHORT_UP →
        0 < CrossMarket.truthyAsk (prices (CrossMarket.longOf a b).pair.noTokenId) ∧
        0 < CrossMarket.truthyAsk (prices (CrossMarket.shortOf a b).pair.yesTokenId) ∧
        opp.entryCost =
          CrossMarket.truthyAsk (prices (CrossMarket.longOf a b).pair.noTokenId) +
          CrossMarket.truthyAsk (prices (CrossMarket.shortOf a b).pair.yesTokenId)) ∧
      (opp.strategy = CrossMarket.Strategy.LONG_UP_SHORT_DOWN →
        0 < CrossMarket.truthyAsk (prices (CrossMarket.longOf a b).pair.yesTokenId) ∧
        0 < CrossMarket.truthyAsk (prices (CrossMarket.shortOf a b).pair.noTokenId) ∧
        opp.entryCost =
          CrossMarket.truthyAsk (prices (CrossMarket.longOf a b).pair.yesTokenId) +
          CrossMarket.truthyAsk (prices (CrossMarket.shortOf a b).pair.noTokenId))) := by
  constructor
  · rintro p hp
    rcases hp with rfl | ⟨tp, rfl, hcase⟩
    · rfl
    · rcases hcase with h | h | h <;> simp [CrossMarket.truthyAsk, h]
  · intro opp hopp
    unfold CrossMarket.checkPairForArbitrage at hopp
    rcases hL : (CrossMarket.longOf a b).referencePrice with _ | lr
    · rw [CrossMarket.checkLongShort_ref_none prices minProfit _ _ now (Or.inl hL)] at hopp
      exact Option.noConfusion hopp
    rcases hS : (CrossMarket.shortOf a b).referencePrice with _ | sr
    · rw [CrossMarket.checkLongShort_ref_none prices minProfit _ _ now (Or.inr hS)] at hopp
      exact Option.noConfusion hopp
    by_cases h0 : lr = 0 ∨ sr = 0
    · rw [CrossMarket.checkLongShort_ref_zero prices minProfit _ _ now lr sr hL hS h0] at hopp
      exact Option.noConfusion hopp
    push_neg at h0
    rw [CrossMarket.checkLongShort_eq prices minProfit _ _ now lr sr hL hS h0.1 h0.2] at hopp
    simp only [CrossMarket.finishPair_eq] at hopp
    by_cases hid : lr = sr
    · rw [if_pos hid] at hopp
      split_ifs at hopp with hb
      obtain rfl := Option.some.inj hopp
      simp only [Bool.not_eq_false, Bool.and_eq_true, decide_eq_true_eq] at hb
      exact ⟨fun _ => ⟨hb.1, hb.2, rfl⟩,
        fun hcon => CrossMarket.Strategy.noConfusion hcon⟩
    rw [if_neg hid] at hopp
    by_cases hlt : sr < lr
    · rw [if_pos hlt] at hopp
      split_ifs at hopp with hb hth
      obtain rfl := Option.some.inj hopp
      simp only [Bool.not_eq_false, Bool.and_eq_true, decide_eq_true_eq] at hb
      exact ⟨fun _ => ⟨hb.1, hb.2, rfl⟩,
        fun hcon => CrossMarket.Strategy.noConfusion hcon⟩
    · rw [if_neg hlt] at hopp
      split_ifs at hopp with hb hth
      obtain rfl := Option.some.inj hopp
      simp only [Bool.not_eq_false, Bool.and_eq_true, decide_eq_true_eq] at hb
      exact ⟨fun hcon => CrossMarket.Strategy.noConfusion hcon,
        fun _ => ⟨hb.1, hb.2, rfl⟩⟩

/-- Witness for C6 at the 1h/15m fixture: the returned opportunity's entryCost
is the sum of the chosen legs' asks 0.40 + 0.55, both strictly positive. -/
theorem c6_missing_ask_witness :
    CrossMarket.truthyAsk none = 0 ∧
    ∃ opp, CrossMarket.checkPairForArbitrage cmPrices (1 / 1000) cmInfoL cmInfoS
        1700000000000 = some opp ∧
      0 < CrossMarket.truthyAsk (cmPrices "LD") ∧
      0 < CrossMarket.truthyAsk (cmPrices "SU") ∧
      opp.entryCost = CrossMarket.truthyAsk (cmPrices "LD") +
        CrossMarket.truthyAsk (cmPrices "SU") := by
  obtain ⟨opp, hopp⟩ : ∃ opp, CrossMarket.checkPairForArbitrage cmPrices (1 / 1000)
      cmInfoL cmInfoS 1700000000000 = some opp := ⟨_, by with_unfolding_all rfl⟩
  have h := (c6_missing_ask_handling cmPrices (1 / 1000) cmInfoL cmInfoS
    1700000000000).2 opp hopp
  have hstrat : opp.strategy = CrossMarket.Strategy.LONG_DOWN_SHORT_UP :=
    (c2_strategy_and_zone_selection cmPrices (1 / 1000) cmInfoL cmInfoS 1700000000000
      100000 99000 opp rfl rfl (by with_unfolding_all decide) hopp).1
      (by with_unfolding_all decide) |>.1
  obtain ⟨h1, h2, h3⟩ := h.1 hstrat
  exact ⟨rfl, opp, hopp, h1, h2, h3⟩

namespace CrossMarket

theorem sameBucket_close {x y : ℤ}
    (h : jsRound ((x : ℚ) / 300) = jsRound ((y : ℚ) / 300)) :
    (x - y).natAbs ≤ 300 := by
  unfold jsRound at h
  have hx1 : ((⌊(x : ℚ) / 300 + 1 / 2⌋ : ℤ) : ℚ) ≤ (x : ℚ) / 300 + 1 / 2 := Int.floor_le _
  have hx2 : (x : ℚ) / 300 + 1 / 2 < (⌊(x : ℚ) / 300 + 1 / 2⌋ : ℤ) + 1 := Int.lt_floor_add_one _
  have hy1 : ((⌊(y : ℚ) / 300 + 1 / 2⌋ : ℤ) : ℚ) ≤ (y : ℚ) / 300 + 1 / 2 := Int.floor_le _
  have hy2 : (y : ℚ) / 300 + 1 / 2 < (⌊(y : ℚ) / 300 + 1 / 2⌋ : ℤ) + 1 := Int.lt_floor_add_one _
  rw [h] at hx1 hx2
  have hxq : (x : ℚ) = 300 * ((x : ℚ) / 300) := by ring
  have hyq : (y : ℚ) = 300 * ((y : ℚ) / 300) := by ring
  have h1 : (x : ℚ) - (y : ℚ) < 300 := by linarith
  have h2 : (y : ℚ) - (x : ℚ) < 300 := by linarith
  have h1' : x - y < 300 := by exact_mod_cast h1
  have h2' : y - x < 300 := by exact_mod_cast h2
  omega

end CrossMarket

/-- Market record for `c7InfoA`. -/
def c7MarketA : GammaMarket :=
  { id := "A", slug := "btc-updown-15m-0", liquidityNum := 100, endDate := 149000 }

/-- Market record for `c7InfoB`. -/
def c7MarketB : GammaMarket :=
  { id := "B", slug := "bitcoin-up-or-down-b", liquidityNum := 100, endDate := 150000 }

/-- Fifteen-minute market whose resolution timestamp 149 sits just below the
bucket boundary at 150. -/
def c7InfoA : CrossMarket.MarketInfo :=
  { market := c7MarketA,
    pair := { market := c7MarketA, yesTokenId := "AY", noTokenId := "AN" },
    interval := .i15m, asset := "btc", resolutionTimestamp := 149,
    candleStartTimestamp := 0, referencePrice := none }

/-- One-hour market whose resolution timestamp 150 sits just above the bucket
boundary, one second after `c7InfoA`. -/
def c7InfoB : CrossMarket.MarketInfo :=
  { market := c7MarketB,
    pair := { market := c7MarketB, yesTokenId := "BY", noTokenId := "BN" },
    interval := .i1h, asset := "btc", resolutionTimestamp := 150,
    candleStartTimestamp := 0, referencePrice := none }

/-- C7 counterexample: two same-asset markets with differing intervals whose
resolution timestamps differ by one second are a candidate pair on the
price-update path, yet land in different 300-second buckets, so the scan path
never pairs them — the ≤ 300 s characterization does not govern both paths. -/
theorem c7_tolerance_counterexample :
    CrossMarket.isUpdateCandidate c7InfoA c7InfoB ∧
    (c7InfoB.resolutionTimestamp - c7InfoA.resolutionTimestamp).natAbs ≤ 300 ∧
    ¬ CrossMarket.isScanCandidate c7InfoA c7InfoB :=
  ⟨by with_unfolding_all decide, by with_unfolding_all decide,
   by with_unfolding_all decide⟩

/-- C7 amended: on the price-update path a pair is a candidate exactly when
the slugs differ, the asset matches, the intervals differ, and the resolution
timestamps are within 300 seconds; the scan path instead pairs markets sharing
the (asset, round(ts/300)) bucket, which guarantees the timestamps are within
300 seconds but can miss within-tolerance pairs straddling a bucket boundary. -/
theorem c7_tolerance_amended :
    (∀ u o : CrossMarket.MarketInfo, CrossMarket.isUpdateCandidate u o ↔
      (o.market.slug ≠ u.market.slug ∧ o.asset = u.asset ∧ o.interval ≠ u.interval ∧
       (o.resolutionTimestamp - u.resolutionTimestamp).natAbs ≤ 300)) ∧
    (∀ a b : CrossMarket.MarketInfo, CrossMarket.isScanCandidate a b →
      a.asset = b.asset ∧ a.interval ≠ b.interval ∧
      (a.resolutionTimestamp - b.resolutionTimestamp).natAbs ≤ 300) := by
  constructor
  · intro u o
    exact Iff.rfl
  · rintro a b ⟨hasset, hbucket, hint⟩
    exact ⟨hasset, hint, CrossMarket.sameBucket_close hbucket⟩

/-- Witness for C7's amended theorem: the 1h/15m fixture markets share a scan
bucket, so their timestamps are certified within 300 seconds. -/
theorem c7_tolerance_witness :
    (cmInfoL.resolutionTimestamp - cmInfoS.resolutionTimestamp).natAbs ≤ 300 ∧
    CrossMarket.isUpdateCandidate cmInfoL cmInfoS :=
  ⟨((c7_tolerance_amended.2 cmInfoL cmInfoS (by with_unfolding_all decide)).2.2),
   (c7_tolerance_amended.1 cmInfoL cmInfoS).mpr (by with_unfolding_all decide)⟩

namespace CrossMarket

/-- Reference-price bookkeeping state of `CrossMarketDetector` (binanceApi.ts
lines 475–599): the slugs of the currently registered markets (the keys of
`marketInfos`), each registered market's `referencePrice` field, the
persistent slug-keyed `refPriceCache`, and the `pricesLoaded` flag. -/
structure RegistryState where
  slugs : List String
  refPrice : String → Option ℚ
  cache : String → Option ℚ
  pricesLoaded : Bool

/-- binanceApi.ts `setMarketPairs` (lines 493–524) restricted to reference
prices: save every registered non-null reference price into the persistent
cache, replace the registered set with the slugs whose market info parses
(`newSlugs`), and restore each newly registered market's price from the
cache. -/
def setMarketPairsR (st : RegistryState) (newSlugs : List String) : RegistryState :=
  { slugs := newSlugs
    refPrice := fun s =>
      if s ∈ newSlugs then
        if s ∈ st.slugs ∧ (st.refPrice s).isSome then st.refPrice s else st.cache s
      else none
    cache := fun s =>
      if s ∈ st.slugs ∧ (st.refPrice s).isSome then st.refPrice s else st.cache s
    pricesLoaded := st.pricesLoaded }

/-- The cache-restore pass at the start of binanceApi.ts `loadReferencePrices`
(lines 533–543): a registered market with a null reference price takes the
cached value for its slug, if any. -/
def restoreFromCache (st : RegistryState) : String → Option ℚ := fun s =>
  if s ∈ st.slugs ∧ st.refPrice s = none then st.cache s else st.refPrice s

/-- binanceApi.ts `loadReferencePrices` (lines 532–599): restore missing
prices from the cache; if a prior load succeeded, nothing is missing, and
`force` is unset, return; otherwise query the external source (`oracle`, one
result per slug) for each still-missing market, storing a non-null result both
on the live market info and in the persistent cache, then set `pricesLoaded`. -/
def loadReferencePricesR (st : RegistryState) (force : Bool)
    (oracle : String → Option ℚ) : RegistryState :=
  if st.pricesLoaded && (st.slugs.all fun s => (restoreFromCache st s).isSome) && !force then
    { st with refPrice := restoreFromCache st }
  else
    { slugs := st.slugs
      refPrice := fun s =>
        if s ∈ st.slugs ∧ restoreFromCache st s = none then oracle s
        else restoreFromCache st s
      cache := fun s =>
        if s ∈ st.slugs ∧ restoreFromCache st s = none ∧ (oracle s).isSome then oracle s
        else st.cache s
      pricesLoaded := true }

/-- The freshly constructed detector: nothing registered, empty cache. -/
def initRegistry : RegistryState :=
  { slugs := [], refPrice := fun _ => none, cache := fun _ => none, pricesLoaded := false }

/-- States reachable by any sequence of `setMarketPairs` and
`loadReferencePrices` calls from the initial state. -/
inductive Reachable : RegistryState → Prop where
  | init : Reachable initRegistry
  | set (st : RegistryState) (newSlugs : List String) :
      Reachable st → Reachable (setMarketPairsR st newSlugs)
  | load (st : RegistryState) (force : Bool) (oracle : String → Option ℚ) :
      Reachable st → Reachable (loadReferencePricesR st force oracle)

/-- Invariant: a registered market's non-null reference price always agrees
with the persistent cache entry for its slug. -/
def RefInv (st : RegistryState) : Prop :=
  ∀ s v, s ∈ st.slugs → st.refPrice s = some v → st.cache s = some v

theorem restore_agrees {st : RegistryState} (h : RefInv st) (s : String) (v : ℚ)
    (hmem : s ∈ st.slugs) (hr : restoreFromCache st s = some v) :
    st.cache s = some v := by
  unfold restoreFromCache at hr
  split_ifs at hr with hc
  · exact hr
  · exact h s v hmem hr

theorem refInv_set (st : RegistryState) (newSlugs : List String) :
    RefInv (setMarketPairsR st newSlugs) := by
  intro s v hmem hsome
  show (if s ∈ st.slugs ∧ (st.refPrice s).isSome then st.refPrice s else st.cache s) = some v
  have hsome' : (if s ∈ newSlugs then
      if s ∈ st.slugs ∧ (st.refPrice s).isSome then st.refPrice s else st.cache s
    else none) = some v := hsome
  have hmem' : s ∈ newSlugs := hmem
  rw [if_pos hmem'] at hsome'
  exact hsome'

theorem refInv_load (st : RegistryState) (force : Bool) (oracle : String → Option ℚ)
    (h : RefInv st) : RefInv (loadReferencePricesR st force oracle) := by
  intro s v hmem hsome
  unfold loadReferencePricesR at hmem hsome ⊢
  split_ifs at hmem hsome ⊢
  · exact restore_agrees h s v hmem hsome
  · by_cases hc : s ∈ st.slugs ∧ restoreFromCache st s = none
    · have hsome' : oracle s = some v := by
        have : (if s ∈ st.slugs ∧ restoreFromCache st s = none then oracle s
            else restoreFromCache st s) = some v := hsome
        rwa [if_pos hc] at this
      show (if s ∈ st.slugs ∧ restoreFromCache st s = none ∧ (oracle s).isSome
          then oracle s else st.cache s) = some v
      rw [if_pos ⟨hc.1, hc.2, by rw [hsome']; rfl⟩]
      exact hsome'
    · have hsome' : restoreFromCache st s = some v := by
        have : (if s ∈ st.slugs ∧ restoreFromCache st s = none then oracle s
            else restoreFromCache st s) = some v := hsome
        rwa [if_neg hc] at this
      show (if s ∈ st.slugs ∧ restoreFromCache st s = none ∧ (oracle s).isSome
          then oracle s else st.cache s) = some v
      rw [if_neg (fun hcc => hc ⟨hcc.1, hcc.2.1⟩)]
      exact restore_agrees h s v hmem hsome'

theorem reachable_refInv {st : RegistryState} (h : Reachable st) : RefInv st := by
  induction h with
  | init => intro s v hmem _; exact absurd hmem (List.not_mem_nil s)
  | set st newSlugs _ _ => exact refInv_set st newSlugs
  | load st force oracle _ ih => exact refInv_load st force oracle ih

theorem cache_preserved_set (st : RegistryState) (h : RefInv st)
    (newSlugs : List String) (s : String) (v : ℚ) (hc : st.cache s = some v) :
    (setMarketPairsR st newSlugs).cache s = some v := by
  show (if s ∈ st.slugs ∧ (st.refPrice s).isSome then st.refPrice s else st.cache s) = some v
  split_ifs with hcond
  · obtain ⟨w, hw⟩ := Option.isSome_iff_exists.mp hcond.2
    rw [hw]
    exact (h s w hcond.1 hw).symm.trans hc
  · exact hc

theorem cache_preserved_load (st : RegistryState) (_h : RefInv st) (force : Bool)
    (oracle : String → Option ℚ) (s : String) (v : ℚ) (hc : st.cache s = some v) :
    (loadReferencePricesR st force oracle).cache s = some v := by
  unfold loadReferencePricesR
  split_ifs with hskip
  · exact hc
  · show (if s ∈ st.slugs ∧ restoreFromCache st s = none ∧ (oracle s).isSome
        then oracle s else st.cache s) = some v
    have hne : ¬(s ∈ st.slugs ∧ restoreFromCache st s = none ∧ (oracle s).isSome) := by
      rintro ⟨hmem, hrest, -⟩
      unfold restoreFromCache at hrest
      split_ifs at hrest with hcc
      · rw [hc] at hrest
        exact Option.noConfusion hrest
      · exact hcc ⟨hmem, hrest⟩
    rw [if_neg hne]
    exact hc

theorem refPrice_no_overwrite_set (st : RegistryState) (_h : RefInv st)
    (newSlugs : List String) (s : String) (v w : ℚ)
    (hmem : s ∈ st.slugs) (hv : st.refPrice s = some v)
    (hw : (setMarketPairsR st newSlugs).refPrice s = some w) : w = v := by
  have hw' : (if s ∈ newSlugs then
      if s ∈ st.slugs ∧ (st.refPrice s).isSome then st.refPrice s else st.cache s
    else none) = some w := hw
  split_ifs at hw' with h1 h2
  · exact (Option.some.inj (hv.symm.trans hw')).symm
  · exact absurd ⟨hmem, by rw [hv]; rfl⟩ h2

theorem refPrice_no_overwrite_load (st : RegistryState) (_h : RefInv st)
    (force : Bool) (oracle : String → Option ℚ) (s : String) (v w : ℚ)
    (_hmem : s ∈ st.slugs) (hv : st.refPrice s = some v)
    (hw : (loadReferencePricesR st force oracle).refPrice s = some w) : w = v := by
  have hrest : restoreFromCache st s = some v := by
    unfold restoreFromCache
    rw [if_neg (fun hc => by rw [hv] at hc; exact Option.noConfusion hc.2)]
    exact hv
  unfold loadReferencePricesR at hw
  split_ifs at hw
  · exact (Option.some.inj (hrest.symm.trans hw)).symm
  · have hw' : (if s ∈ st.slugs ∧ restoreFromCache st s = none then oracle s
        else restoreFromCache st s) = some w := hw
    rw [if_neg (fun hc => by rw [hrest] at hc; exact Option.noConfusion hc.2)] at hw'
    exact (Option.some.inj (hrest.symm.trans hw')).symm

end CrossMarket

/-- C8: in every reachable detector state, a cached reference price for a slug
is restored exactly onto any market re-registered with that slug, survives
both operations unchanged, and a registered market's already-set reference
price is never replaced by a different value by either setMarketPairs or
loadReferencePrices (with or without force). -/
theorem c8_reference_price_immutability (st : CrossMarket.RegistryState)
    (h : CrossMarket.Reachable st) :
    (∀ s v, st.cache s = some v →
      (∀ newSlugs, s ∈ newSlugs →
        (CrossMarket.setMarketPairsR st newSlugs).refPrice s = some v) ∧
      (∀ newSlugs, (CrossMarket.setMarketPairsR st newSlugs).cache s = some v) ∧
      (∀ force oracle,
        (CrossMarket.loadReferencePricesR st force oracle).cache s = some v)) ∧
    (∀ s v, s ∈ st.slugs → st.refPrice s = some v →
      (∀ newSlugs w,
        (CrossMarket.setMarketPairsR st newSlugs).refPrice s = some w → w = v) ∧
      (∀ force oracle w,
        (CrossMarket.loadReferencePricesR st force oracle).refPrice s = some w →
          w = v)) := by
  have hInv := CrossMarket.reachable_refInv h
  constructor
  · intro s v hc
    refine ⟨?_,
      fun newSlugs => CrossMarket.cache_preserved_set st hInv newSlugs s v hc,
      fun force oracle =>
        CrossMarket.cache_preserved_load st hInv force oracle s v hc⟩
    intro newSlugs hmem
    have hcache := CrossMarket.cache_preserved_set st hInv newSlugs s v hc
    show (if s ∈ newSlugs then
        if s ∈ st.slugs ∧ (st.refPrice s).isSome then st.refPrice s else st.cache s
      else none) = some v
    rw [if_pos hmem]
    exact hcache
  · intro s v hmem hv
    exact ⟨fun newSlugs w hw =>
        CrossMarket.refPrice_no_overwrite_set st hInv newSlugs s v w hmem hv hw,
      fun force oracle w hw =>
        CrossMarket.refPrice_no_overwrite_load st hInv force oracle s v w hmem hv hw⟩

/-- A concrete reachable state for the C8 witness: register slug s1, then load
reference prices with an oracle answering 5. -/
def c8State : CrossMarket.RegistryState :=
  CrossMarket.loadReferencePricesR
    (CrossMarket.setMarketPairsR CrossMarket.initRegistry ["s1"]) false
    (fun _ => some 5)

/-- Witness for C8: after loading the price 5 for slug s1, a refresh that
re-registers s1 (alongside a new slug) restores exactly 5. -/
theorem c8_reference_price_witness :
    (CrossMarket.setMarketPairsR c8State ["s1", "s2"]).refPrice "s1" = some 5 :=
  ((c8_reference_price_immutability c8State
      (CrossMarket.Reachable.load _ false _
        (CrossMarket.Reachable.set _ _ CrossMarket.Reachable.init))).1
    "s1" 5 (by with_unfolding_all decide)).1 ["s1", "s2"] (by decide)
